import Mathlib

/-!
# ClueBoardGameFHE — a verified shallow embedding

This file embeds the Solidity contract `ClueBoardGameFHE` (batch lifecycle,
bounded aggregation of encrypted contributions, cooldowns, and the
commit-bound disclosure callback pipeline) as executable Lean definitions,
and proves/refutes the specification's claims about it.

Modelling conventions:
* `euint32` ciphertext handles are modelled symbolically by the inductive
  `CT`: a storage slot that was never written holds the zero handle
  (`CT.uninit`, the handle `FHE.isInitialized` rejects); `FHE.asEuint32 n`
  is a trivial encryption (`CT.lit n`); `FHE.add` returns a fresh handle
  that is a new symbolic node (`CT.add`), never equal to either operand —
  matching the fact that the FHE coprocessor allocates a fresh handle for
  every operation result.  `ebool` handles are `EB` likewise.
* `keccak256(abi.encode(cts, address(this)))` is modelled as an injective
  (collision-free) digest of the handle list; `address(this)` is constant
  for a single contract instance and is dropped.  The zero `bytes32` word
  (the storage default of `stateHash`) is never a digest output, so the
  digest type is `Option (List HB)` with `none` as the zero word.
* `FHE.requestDecryption` is an external oracle call that returns a fresh,
  never-reused request id; it is modelled as a monotone counter
  `nextRequestId` threaded through the state.
* `FHE.checkSignatures` is an external verifier; it is modelled as a
  boolean oracle outcome `sigOk` supplied with the callback call, failure
  being propagated as the error `SigCheckFailed`.
* Each external function becomes `State → Except Err (State × List Event)`;
  an `Except.error` result models a Solidity revert: the transaction leaves
  the state unchanged and emits nothing.
* `block.timestamp` is the explicit argument `now` of the time-sensitive
  entry points.
-/

namespace ClueFHE

/-- Participant identities (addresses). -/
abbrev Addr := Nat

/-- Symbolic `euint32` ciphertext handles. -/
inductive CT where
  /-- The zero handle: the storage default, rejected by `FHE.isInitialized`. -/
  | uninit : CT
  /-- `FHE.asEuint32 n`, a trivial encryption of the constant `n`. -/
  | lit (n : Nat) : CT
  /-- The fresh handle returned by `FHE.add a b`. -/
  | add (a b : CT) : CT
deriving DecidableEq, Repr

/-- Symbolic `ebool` ciphertext handles. -/
inductive EB where
  /-- `FHE.asEbool b`, a trivial encryption of the constant `b`. -/
  | litB (b : Bool) : EB
  /-- The fresh handle returned by `FHE.eq a b` on two `euint32` handles. -/
  | eqc (a b : CT) : EB
  /-- The fresh handle returned by `FHE.and x y`. -/
  | andc (x y : EB) : EB
deriving DecidableEq, Repr

/-- A `bytes32` ciphertext handle as it appears in a decryption-request
array (`FHE.toBytes32` of either handle kind). -/
inductive HB where
  | c (x : CT) : HB
  | b (x : EB) : HB
deriving DecidableEq, Repr

/-- A `bytes32` digest slot: `none` is the zero word (the storage default),
`some cts` is the injectively-modelled `keccak256(abi.encode(cts, this))`. -/
abbrev Digest := Option (List HB)

namespace FHE

/-- `FHE.isInitialized`: true iff the handle is not the zero handle. -/
def isInitialized : CT → Bool
  | .uninit => false
  | _ => true

/-- `FHE.asEuint32`. -/
def asEuint32 (n : Nat) : CT := CT.lit n

/-- `FHE.add`: allocates a fresh result handle. -/
def add (a b : CT) : CT := CT.add a b

/-- `FHE.eq` on `euint32` handles: allocates a fresh `ebool` handle. -/
def eq (a b : CT) : EB := EB.eqc a b

/-- `FHE.and` on `ebool` handles: allocates a fresh `ebool` handle. -/
def and (x y : EB) : EB := EB.andc x y

/-- `FHE.asEbool`. -/
def asEbool (b : Bool) : EB := EB.litB b

end FHE

/-- The contract's custom errors, plus `SigCheckFailed` for a failure
propagated out of the external `FHE.checkSignatures` verifier. -/
inductive Err where
  | NotOwner
  | NotProvider
  | Paused
  | InvalidState
  | RateLimited
  | BatchClosed
  | BatchFull
  | InvalidBatch
  | StaleVersion
  | AlreadyProcessed
  | SigCheckFailed
deriving DecidableEq, Repr

/-- The contract's events.  The contract declares both an error and an
event named `Paused`/`BatchClosed`; the event constructors carry an `E`
suffix here to keep the names distinct. -/
inductive Event where
  | ProviderAdded (provider : Addr)
  | ProviderRemoved (provider : Addr)
  | PausedE
  | UnpausedE
  | CooldownUpdated (newCooldown : Nat)
  | BatchOpened (batchId : Nat)
  | BatchClosedE (batchId : Nat)
  | Submission (player : Addr) (batchId : Nat) (w r su : HB)
  | DecryptionRequested (requestId batchId : Nat) (stateHash : Digest)
  | DecryptionComplete (requestId batchId : Nat) (solution : Nat × Nat × Nat)
  | Accusation (player : Addr) (batchId : Nat) (isCorrect : Bool)
deriving DecidableEq, Repr

/-- `struct Batch`.  The struct's own `mapping(address => bool) submitted`
member is declared in the source but never read or written (the contract
uses the top-level `hasSubmitted` mapping instead), so it is omitted. -/
structure Batch where
  isOpen : Bool := false
  submissionCount : Nat := 0
  encryptedWeapon : CT := CT.uninit
  encryptedRoom : CT := CT.uninit
  encryptedSuspect : CT := CT.uninit
deriving DecidableEq, Repr

/-- `struct DecryptionContext`. -/
structure DecryptionContext where
  batchId : Nat
  modelVersion : Nat
  stateHash : Digest
  processed : Bool
deriving DecidableEq, Repr

/-- The all-zero `DecryptionContext` a Solidity mapping returns for a key
that was never written. -/
def zeroCtx : DecryptionContext :=
  { batchId := 0, modelVersion := 0, stateHash := none, processed := false }

/-- Point update of a map modelled as a function. -/
def upd {κ α : Type} [DecidableEq κ] (f : κ → α) (k : κ) (v : α) : κ → α :=
  fun q => if q = k then v else f q

@[simp] theorem upd_same {κ α : Type} [DecidableEq κ]
    (f : κ → α) (k : κ) (v : α) : upd f k v k = v := by
  simp [upd]

theorem upd_ne {κ α : Type} [DecidableEq κ]
    (f : κ → α) (k : κ) (v : α) (q : κ) (h : q ≠ k) : upd f k v q = f q := by
  simp [upd, h]

/-- `MAX_BATCH_SIZE`. -/
def MAX_BATCH_SIZE : Nat := 10

/-- The contract's storage. -/
structure State where
  owner : Addr
  paused : Bool
  cooldownSeconds : Nat
  currentBatchId : Nat
  modelVersion : Nat
  providers : Addr → Bool
  lastSubmissionAt : Addr → Nat
  lastRequestAt : Addr → Nat
  batches : Nat → Batch
  decryptionContexts : Nat → DecryptionContext
  hasSubmitted : Nat → Addr → Bool
  hasRequested : Nat → Addr → Bool
  /-- The external oracle's next fresh request id (monotone counter model
  of `FHE.requestDecryption`'s unique, never-reused ids). -/
  nextRequestId : Nat

/-- The storage contents right after the constructor runs with deployer
`deployer`. -/
def initState (deployer : Addr) : State :=
  { owner := deployer
    paused := false
    cooldownSeconds := 30
    currentBatchId := 0
    modelVersion := 1
    providers := fun _ => false
    lastSubmissionAt := fun _ => 0
    lastRequestAt := fun _ => 0
    batches := fun _ => {}
    decryptionContexts := fun _ => zeroCtx
    hasSubmitted := fun _ _ => false
    hasRequested := fun _ _ => false
    nextRequestId := 0 }

/-- The result of one external call: a revert (`Except.error`, state rolled
back) or the new state with the emitted events. -/
abbrev TxResult := Except Err (State × List Event)

/-- `_hashCiphertexts`: `keccak256(abi.encode(cts, address(this)))`,
modelled as an injective digest of the handle list (`address(this)` is a
constant for the instance); never the zero word. -/
def hashCiphertexts (cts : List HB) : Digest := some cts

/-- `_initIfNeeded`: a `view` helper that RETURNS `x` when it is
initialized and the trivial zero encryption otherwise.  Being `view`, it
cannot write storage; its caller must use the returned value. -/
def initIfNeeded (x : CT) : CT :=
  if FHE.isInitialized x then x else FHE.asEuint32 0

/-- `addProvider` (owner-only). -/
def addProvider (caller provider : Addr) (s : State) : TxResult :=
  if caller ≠ s.owner then .error .NotOwner
  else .ok ({ s with providers := upd s.providers provider true },
            [.ProviderAdded provider])

/-- `removeProvider` (owner-only). -/
def removeProvider (caller provider : Addr) (s : State) : TxResult :=
  if caller ≠ s.owner then .error .NotOwner
  else .ok ({ s with providers := upd s.providers provider false },
            [.ProviderRemoved provider])

/-- `pause` (owner-only). -/
def pause (caller : Addr) (s : State) : TxResult :=
  if caller ≠ s.owner then .error .NotOwner
  else .ok ({ s with paused := true }, [.PausedE])

/-- `unpause` (owner-only). -/
def unpause (caller : Addr) (s : State) : TxResult :=
  if caller ≠ s.owner then .error .NotOwner
  else .ok ({ s with paused := false }, [.UnpausedE])

/-- `setCooldown` (owner-only). -/
def setCooldown (caller : Addr) (newCooldown : Nat) (s : State) : TxResult :=
  if caller ≠ s.owner then .error .NotOwner
  else .ok ({ s with cooldownSeconds := newCooldown },
            [.CooldownUpdated newCooldown])

/-- `openBatch` (owner-only): allocates the next batch id and opens it. -/
def openBatch (caller : Addr) (s : State) : TxResult :=
  if caller ≠ s.owner then .error .NotOwner
  else
    let id := s.currentBatchId + 1
    .ok ({ s with currentBatchId := id
                  batches := upd s.batches id { s.batches id with isOpen := true } },
         [.BatchOpened id])

/-- `closeBatch` (owner-only). -/
def closeBatch (caller : Addr) (batchId : Nat) (s : State) : TxResult :=
  if caller ≠ s.owner then .error .NotOwner
  else if !(s.batches batchId).isOpen then .error .BatchClosed
  else .ok ({ s with batches := upd s.batches batchId
                       { s.batches batchId with isOpen := false } },
            [.BatchClosedE batchId])

/-- `submitEncryptedGuess`.  Modifier order: `whenNotPaused`, then
`checkCooldown(msg.sender, lastSubmissionAt)`, then the body.  NOTE
(faithful to the source): the body calls `_initIfNeeded` on each aggregate
but DISCARDS the returned value (the helper is `view`), so no zero
initialization of the stored aggregates actually happens; `FHE.add` is then
applied to the aggregates as they are, the zero handle included. -/
def submitEncryptedGuess (caller : Addr) (now : Nat) (batchId : Nat)
    (encryptedWeapon encryptedRoom encryptedSuspect : CT) (s : State) : TxResult :=
  if s.paused then .error .Paused
  else if now < s.lastSubmissionAt caller + s.cooldownSeconds then .error .RateLimited
  else if !(s.batches batchId).isOpen then .error .BatchClosed
  else if MAX_BATCH_SIZE ≤ (s.batches batchId).submissionCount then .error .BatchFull
  else if s.hasSubmitted batchId caller then .error .InvalidState
  else
    -- `_initIfNeeded(batches[batchId].encryptedWeapon);` (result discarded) ×3
    let b := s.batches batchId
    let b' : Batch :=
      { b with encryptedWeapon := FHE.add b.encryptedWeapon encryptedWeapon
               encryptedRoom := FHE.add b.encryptedRoom encryptedRoom
               encryptedSuspect := FHE.add b.encryptedSuspect encryptedSuspect
               submissionCount := b.submissionCount + 1 }
    .ok ({ s with batches := upd s.batches batchId b'
                  hasSubmitted := upd s.hasSubmitted batchId
                    (upd (s.hasSubmitted batchId) caller true)
                  lastSubmissionAt := upd s.lastSubmissionAt caller now },
         [.Submission caller batchId
            (.c encryptedWeapon) (.c encryptedRoom) (.c encryptedSuspect)])

/-- `makeAccusation`.  Shares the cooldown ledger (`lastSubmissionAt`) and
the dedup set (`hasSubmitted`) with `submitEncryptedGuess`.  The
`_initIfNeeded` calls again discard their results (see
`submitEncryptedGuess`), so the equality comparisons run against the
aggregates as stored. -/
def makeAccusation (caller : Addr) (now : Nat) (batchId : Nat)
    (encryptedWeapon encryptedRoom encryptedSuspect : CT) (s : State) : TxResult :=
  if s.paused then .error .Paused
  else if now < s.lastSubmissionAt caller + s.cooldownSeconds then .error .RateLimited
  else if !(s.batches batchId).isOpen then .error .BatchClosed
  else if s.hasSubmitted batchId caller then .error .InvalidState
  else
    let b := s.batches batchId
    let isCorrect : EB :=
      FHE.and (FHE.and (FHE.eq b.encryptedWeapon encryptedWeapon)
                       (FHE.eq b.encryptedRoom encryptedRoom))
              (FHE.eq b.encryptedSuspect encryptedSuspect)
    let cts : List HB := [.b isCorrect]
    let stateHash := hashCiphertexts cts
    let requestId := s.nextRequestId
    .ok ({ s with decryptionContexts := upd s.decryptionContexts requestId
                    { batchId := batchId, modelVersion := s.modelVersion
                      stateHash := stateHash, processed := false }
                  nextRequestId := requestId + 1
                  hasSubmitted := upd s.hasSubmitted batchId
                    (upd (s.hasSubmitted batchId) caller true)
                  lastSubmissionAt := upd s.lastSubmissionAt caller now },
         [.DecryptionRequested requestId batchId stateHash])

/-- `requestBatchSolution`.  Cooldown category: `lastRequestAt`. -/
def requestBatchSolution (caller : Addr) (now : Nat) (batchId : Nat)
    (s : State) : TxResult :=
  if s.paused then .error .Paused
  else if now < s.lastRequestAt caller + s.cooldownSeconds then .error .RateLimited
  else if (s.batches batchId).submissionCount = 0 then .error .InvalidBatch
  else if s.hasRequested batchId caller then .error .InvalidState
  else
    let b := s.batches batchId
    let cts : List HB := [.c b.encryptedWeapon, .c b.encryptedRoom, .c b.encryptedSuspect]
    let stateHash := hashCiphertexts cts
    let requestId := s.nextRequestId
    .ok ({ s with decryptionContexts := upd s.decryptionContexts requestId
                    { batchId := batchId, modelVersion := s.modelVersion
                      stateHash := stateHash, processed := false }
                  nextRequestId := requestId + 1
                  hasRequested := upd s.hasRequested batchId
                    (upd (s.hasRequested batchId) caller true)
                  lastRequestAt := upd s.lastRequestAt caller now },
         [.DecryptionRequested requestId batchId stateHash])

/-- `_rebuildIsCorrect`: requires all three aggregates initialized
(`InvalidState` otherwise) and then — per the source — returns the
hardcoded placeholder `FHE.asEbool(false)` instead of recomputing the
comparison.  Returns `Except` to carry the revert. -/
def rebuildIsCorrect (batchId : Nat) (s : State) : Except Err EB :=
  let b := s.batches batchId
  if !(FHE.isInitialized b.encryptedWeapon) then .error .InvalidState
  else if !(FHE.isInitialized b.encryptedRoom) then .error .InvalidState
  else if !(FHE.isInitialized b.encryptedSuspect) then .error .InvalidState
  else .ok (FHE.asEbool false)

/-- `_rebuildBatchSolution`: requires all three aggregates initialized
(`InvalidState` otherwise) and returns the three live aggregates. -/
def rebuildBatchSolution (batchId : Nat) (s : State) : Except Err (CT × CT × CT) :=
  let b := s.batches batchId
  if !(FHE.isInitialized b.encryptedWeapon) then .error .InvalidState
  else if !(FHE.isInitialized b.encryptedRoom) then .error .InvalidState
  else if !(FHE.isInitialized b.encryptedSuspect) then .error .InvalidState
  else .ok (b.encryptedWeapon, b.encryptedRoom, b.encryptedSuspect)

/-- `handleAccusationCallback`.  `cleartexts` decodes to a `Bool`; `sigOk`
is the outcome of the external `FHE.checkSignatures` verification. -/
def handleAccusationCallback (caller : Addr) (requestId : Nat)
    (cleartext : Bool) (sigOk : Bool) (s : State) : TxResult :=
  let context := s.decryptionContexts requestId
  if context.processed then .error .AlreadyProcessed
  else if context.modelVersion ≠ s.modelVersion then .error .StaleVersion
  else
    match rebuildIsCorrect context.batchId s with
    | .error e => .error e
    | .ok isCorrect =>
      let currHash := hashCiphertexts [.b isCorrect]
      if currHash ≠ context.stateHash then .error .InvalidState
      else if !sigOk then .error .SigCheckFailed
      else .ok ({ s with decryptionContexts := upd s.decryptionContexts requestId
                           { context with processed := true } },
                [.Accusation caller context.batchId cleartext])

/-- `handleBatchSolutionCallback`.  `cleartexts` decodes to a
`uint256[3]`. -/
def handleBatchSolutionCallback (caller : Addr) (requestId : Nat)
    (cleartext : Nat × Nat × Nat) (sigOk : Bool) (s : State) : TxResult :=
  let context := s.decryptionContexts requestId
  if context.processed then .error .AlreadyProcessed
  else if context.modelVersion ≠ s.modelVersion then .error .StaleVersion
  else
    match rebuildBatchSolution context.batchId s with
    | .error e => .error e
    | .ok (w, r, su) =>
      let currHash := hashCiphertexts [.c w, .c r, .c su]
      if currHash ≠ context.stateHash then .error .InvalidState
      else if !sigOk then .error .SigCheckFailed
      else .ok ({ s with decryptionContexts := upd s.decryptionContexts requestId
                           { context with processed := true } },
                [.DecryptionComplete requestId context.batchId cleartext])

/-- One external call to the contract, with its caller and (where the body
reads it) the block timestamp. -/
inductive Action where
  | addProvider (caller provider : Addr)
  | removeProvider (caller provider : Addr)
  | pause (caller : Addr)
  | unpause (caller : Addr)
  | setCooldown (caller : Addr) (newCooldown : Nat)
  | openBatch (caller : Addr)
  | closeBatch (caller : Addr) (batchId : Nat)
  | submitEncryptedGuess (caller : Addr) (now batchId : Nat) (w r su : CT)
  | makeAccusation (caller : Addr) (now batchId : Nat) (w r su : CT)
  | requestBatchSolution (caller : Addr) (now batchId : Nat)
  | handleAccusationCallback (caller : Addr) (requestId : Nat)
      (cleartext : Bool) (sigOk : Bool)
  | handleBatchSolutionCallback (caller : Addr) (requestId : Nat)
      (cleartext : Nat × Nat × Nat) (sigOk : Bool)

/-- Dispatch one external call. -/
def exec : Action → State → TxResult
  | .addProvider c p, s => addProvider c p s
  | .removeProvider c p, s => removeProvider c p s
  | .pause c, s => pause c s
  | .unpause c, s => unpause c s
  | .setCooldown c n, s => setCooldown c n s
  | .openBatch c, s => openBatch c s
  | .closeBatch c b, s => closeBatch c b s
  | .submitEncryptedGuess c t b w r su, s => submitEncryptedGuess c t b w r su s
  | .makeAccusation c t b w r su, s => makeAccusation c t b w r su s
  | .requestBatchSolution c t b, s => requestBatchSolution c t b s
  | .handleAccusationCallback c rid clr sig, s =>
      handleAccusationCallback c rid clr sig s
  | .handleBatchSolutionCallback c rid clr sig, s =>
      handleBatchSolutionCallback c rid clr sig s

/-- The state after a call: a revert rolls the state back. -/
def stateAfter (r : TxResult) (s : State) : State :=
  match r with
  | .ok (s', _) => s'
  | .error _ => s

/-- States reachable from deployment by any sequence of external calls. -/
inductive Reachable : State → Prop where
  | init (deployer : Addr) : Reachable (initState deployer)
  | step (s : State) (a : Action) : Reachable s → Reachable (stateAfter (exec a s) s)

/-! ## Helper lemmas -/

/-- A fresh `FHE.add` handle is never its own left operand. -/
theorem CT.add_ne_left (a : CT) : ∀ b : CT, CT.add a b ≠ a := by
  induction a with
  | uninit => intro b h; exact CT.noConfusion h
  | lit n => intro b h; exact CT.noConfusion h
  | add a1 a2 ih1 ih2 =>
      intro b h
      injection h with h1 h2
      exact ih1 a2 h1

/-- The state-machine invariant used by several claims: the version counter
is pinned at its deployment value, batch counts are bounded, and every
request id at or above the oracle counter is still the zero context. -/
def Inv (s : State) : Prop :=
  s.modelVersion = 1 ∧
  (∀ b, (s.batches b).submissionCount ≤ MAX_BATCH_SIZE) ∧
  (∀ rid, s.nextRequestId ≤ rid → s.decryptionContexts rid = zeroCtx)

theorem inv_init (deployer : Addr) : Inv (initState deployer) := by
  refine ⟨rfl, ?_, ?_⟩ <;> intro _ <;> simp [initState, MAX_BATCH_SIZE, zeroCtx]

theorem inv_step (a : Action) (s : State) (h : Inv s) :
    Inv (stateAfter (exec a s) s) := by
  obtain ⟨hv, hb, hc⟩ := h
  cases a with
  | addProvider c p =>
      simp only [exec, addProvider]
      split
      · exact ⟨hv, hb, hc⟩
      · exact ⟨hv, hb, hc⟩
  | removeProvider c p =>
      simp only [exec, removeProvider]
      split
      · exact ⟨hv, hb, hc⟩
      · exact ⟨hv, hb, hc⟩
  | pause c =>
      simp only [exec, pause]
      split
      · exact ⟨hv, hb, hc⟩
      · exact ⟨hv, hb, hc⟩
  | unpause c =>
      simp only [exec, unpause]
      split
      · exact ⟨hv, hb, hc⟩
      · exact ⟨hv, hb, hc⟩
  | setCooldown c n =>
      simp only [exec, setCooldown]
      split
      · exact ⟨hv, hb, hc⟩
      · exact ⟨hv, hb, hc⟩
  | openBatch c =>
      simp only [exec, openBatch]
      split
      · exact ⟨hv, hb, hc⟩
      · refine ⟨hv, ?_, hc⟩
        intro b
        by_cases hbq : b = s.currentBatchId + 1
        · subst hbq; simp [stateAfter, upd]; exact hb _
        · simp [stateAfter, upd_ne _ _ _ _ hbq]; exact hb b
  | closeBatch c bid =>
      simp only [exec, closeBatch]
      split
      · exact ⟨hv, hb, hc⟩
      · split
        · exact ⟨hv, hb, hc⟩
        · refine ⟨hv, ?_, hc⟩
          intro b
          by_cases hbq : b = bid
          · subst hbq; simp [stateAfter, upd]; exact hb _
          · simp [stateAfter, upd_ne _ _ _ _ hbq]; exact hb b
  | submitEncryptedGuess c t bid w r su =>
      simp only [exec, submitEncryptedGuess]
      split
      · exact ⟨hv, hb, hc⟩
      split
      · exact ⟨hv, hb, hc⟩
      split
      · exact ⟨hv, hb, hc⟩
      split
      · exact ⟨hv, hb, hc⟩
      split
      · exact ⟨hv, hb, hc⟩
      next hfull _ =>
        refine ⟨hv, ?_, hc⟩
        intro b
        by_cases hbq : b = bid
        · subst hbq; simp [stateAfter, upd]; omega
        · simp [stateAfter, upd_ne _ _ _ _ hbq]; exact hb b
  | makeAccusation c t bid w r su =>
      simp only [exec, makeAccusation]
      split
      · exact ⟨hv, hb, hc⟩
      split
      · exact ⟨hv, hb, hc⟩
      split
      · exact ⟨hv, hb, hc⟩
      split
      · exact ⟨hv, hb, hc⟩
      · refine ⟨hv, hb, ?_⟩
        intro rid hrid
        simp only [stateAfter] at hrid ⊢
        have hne : rid ≠ s.nextRequestId := by omega
        rw [upd_ne _ _ _ _ hne]
        exact hc rid (by omega)
  | requestBatchSolution c t bid =>
      simp only [exec, requestBatchSolution]
      split
      · exact ⟨hv, hb, hc⟩
      split
      · exact ⟨hv, hb, hc⟩
      split
      · exact ⟨hv, hb, hc⟩
      split
      · exact ⟨hv, hb, hc⟩
      · refine ⟨hv, hb, ?_⟩
        intro rid hrid
        simp only [stateAfter] at hrid ⊢
        have hne : rid ≠ s.nextRequestId := by omega
        rw [upd_ne _ _ _ _ hne]
        exact hc rid (by omega)
  | handleAccusationCallback c rid clr sig =>
      simp only [exec, handleAccusationCallback]
      split
      · exact ⟨hv, hb, hc⟩
      · rename_i hproc
        split
        · exact ⟨hv, hb, hc⟩
        · rename_i hver
          split
          · exact ⟨hv, hb, hc⟩
          · split
            · exact ⟨hv, hb, hc⟩
            · split
              · exact ⟨hv, hb, hc⟩
              · refine ⟨hv, hb, ?_⟩
                intro q hq
                simp only [stateAfter] at hq ⊢
                have hlt : rid < s.nextRequestId := by
                  by_contra hge
                  have hz := hc rid (by omega)
                  rw [hz] at hver
                  exact hver (by rw [hv]; simp [zeroCtx])
                rw [upd_ne _ _ _ _ (by omega : q ≠ rid)]
                exact hc q hq
  | handleBatchSolutionCallback c rid clr sig =>
      simp only [exec, handleBatchSolutionCallback]
      split
      · exact ⟨hv, hb, hc⟩
      · rename_i hproc
        split
        · exact ⟨hv, hb, hc⟩
        · rename_i hver
          split
          · exact ⟨hv, hb, hc⟩
          · split
            · exact ⟨hv, hb, hc⟩
            · split
              · exact ⟨hv, hb, hc⟩
              · refine ⟨hv, hb, ?_⟩
                intro q hq
                simp only [stateAfter] at hq ⊢
                have hlt : rid < s.nextRequestId := by
                  by_contra hge
                  have hz := hc rid (by omega)
                  rw [hz] at hver
                  exact hver (by rw [hv]; simp [zeroCtx])
                rw [upd_ne _ _ _ _ (by omega : q ≠ rid)]
                exact hc q hq

theorem reachable_inv {s : State} (h : Reachable s) : Inv s := by
  induction h with
  | init d => exact inv_init d
  | step s a _ ih => exact inv_step a s ih

/-- Whether a call succeeded (no revert). -/
def txOk (r : TxResult) : Bool :=
  match r with
  | .ok _ => true
  | .error _ => false

/-- Run a sequence of external calls (reverted calls leave the state as it
was). -/
def runD : List Action → State → State
  | [], s => s
  | a :: l, s => runD l (stateAfter (exec a s) s)

theorem reachable_runD (l : List Action) (s : State) (h : Reachable s) :
    Reachable (runD l s) := by
  induction l generalizing s with
  | nil => exact h
  | cons a l ih => exact ih _ (Reachable.step s a h)

/-! ## Concrete scenario states used by the witnesses -/

/-- Deployment by address 0, batch 1 opened, one submission by address 1. -/
def demoSub : State :=
  runD [.openBatch 0,
        .submitEncryptedGuess 1 100 1 (CT.lit 5) (CT.lit 6) (CT.lit 7)]
    (initState 0)

/-- `demoSub`, then address 2 requests disclosure of batch 1's solution
(request id 0). -/
def demoReq : State :=
  runD [.requestBatchSolution 2 100 1] demoSub

/-- `demoReq`, then request 0 settles successfully. -/
def demoSettled : State :=
  stateAfter (exec (.handleBatchSolutionCallback 3 0 (7, 8, 9) true) demoReq) demoReq

/-! ## Claims -/

/-- C1: the spec says an uninitialized field aggregate is first set to the
additive identity and the contribution is then combined into it, so the
aggregate after the first accepted submission is `add(asEuint32 0, c)`.
The code instead calls the `view` helper `_initIfNeeded` and DISCARDS its
return value, so the stored aggregate after the first accepted submission
is `add(zero-handle, c)` — the lazy zero-initialization the spec (and the
source's own comment "Initialize accumulators if needed") intends never
happens.  This theorem evaluates the code at the failing input: batch 1
fresh, first submission with weapon contribution `lit 5`. -/
theorem C1_initIfNeeded_discarded :
    ((demoSub.batches 1).encryptedWeapon = CT.add CT.uninit (CT.lit 5)) ∧
    CT.add CT.uninit (CT.lit 5) ≠ FHE.add (FHE.asEuint32 0) (CT.lit 5) := by
  exact ⟨rfl, by decide⟩

/-- C3: the claim says an administrative action increments the
process-wide version counter `modelVersion` and thereby invalidates
in-flight disclosure contexts.  No such action exists in the code: every
external call of the contract leaves `modelVersion` unchanged, and every
reachable state has `modelVersion = 1` (its constructor value), so the
`StaleVersion` check over stored contexts is dead for every context a
request ever stores. -/
theorem C3_no_version_bump_action :
    (∀ (a : Action) (s : State),
        (stateAfter (exec a s) s).modelVersion = s.modelVersion) ∧
    (∀ s : State, Reachable s → s.modelVersion = 1) := by
  constructor
  · intro a s
    cases a <;>
      simp only [exec, addProvider, removeProvider, pause, unpause, setCooldown,
        openBatch, closeBatch, submitEncryptedGuess, makeAccusation,
        requestBatchSolution, handleAccusationCallback, handleBatchSolutionCallback] <;>
      (repeat' split) <;> rfl
  · intro s hs
    exact (reachable_inv hs).1

/-- Witness for C3 at concrete inputs: `pause` (an administrative action)
preserves `modelVersion`, and the deployed state has `modelVersion = 1`. -/
theorem C3_no_version_bump_action_witness :
    (stateAfter (exec (.pause 0) (initState 0)) (initState 0)).modelVersion =
      (initState 0).modelVersion ∧
    (initState 0).modelVersion = 1 :=
  ⟨C3_no_version_bump_action.1 (.pause 0) (initState 0),
   C3_no_version_bump_action.2 (initState 0) (.init 0)⟩

/-- C4 counterexample: for a `requestId` with no stored context, the
settle entry points do NOT fail with a dedicated unknown-request condition
as the first check — the contract has no unknown-request error at all.  The
mapping yields the all-zero context, the `processed` check passes
vacuously, and the call fails at the *version* check with `StaleVersion`
(the zero context's version 0 against the live version 1).  Concretely, at
the deployed state request id 5 was never issued, yet both callbacks
return `StaleVersion`. -/
theorem C4_unknown_request_counterexample :
    exec (.handleBatchSolutionCallback 9 5 (0, 0, 0) true) (initState 0) =
      .error .StaleVersion ∧
    exec (.handleAccusationCallback 9 5 true true) (initState 0) =
      .error .StaleVersion := by
  exact ⟨rfl, rfl⟩

/-- C4 (amended): for every reachable state and every `requestId` never
issued by the oracle (at or above the oracle counter, hence with no stored
context), both settle entry points fail with `StaleVersion`: the missing
context reads back as the all-zero context, whose version snapshot 0 never
equals the live `modelVersion = 1`; the (vacuously passing) `processed`
check runs first, and no state is mutated. -/
theorem C4_unknown_request_stale (s : State) (hs : Reachable s) (rid : Nat)
    (hfresh : s.nextRequestId ≤ rid) (c : Addr) (clr3 : Nat × Nat × Nat)
    (clb sig : Bool) :
    handleBatchSolutionCallback c rid clr3 sig s = .error .StaleVersion ∧
    handleAccusationCallback c rid clb sig s = .error .StaleVersion := by
  have hz := (reachable_inv hs).2.2 rid hfresh
  have hv := (reachable_inv hs).1
  constructor
  · simp [handleBatchSolutionCallback, hz, zeroCtx, hv]
  · simp [handleAccusationCallback, hz, zeroCtx, hv]

/-- C2: if a submission to a batch lands after a solution-disclosure
request for that batch was issued and before its callback settles, the
settlement fails with `InvalidState` (commitment-hash mismatch): the
`FHE.add` in the submission replaced each aggregate by a fresh handle, so
the digest of the rebuilt handle list can no longer equal the one stored
in the context.  The failure is a revert, so the context is not marked
processed and no disclosure event is emitted. -/
theorem C2_interleaved_submission_detected
    (s0 s1 s2 : State) (requester submitter anyCaller : Addr)
    (t1 t2 batchId : Nat) (w r su : CT) (ev1 ev2 : List Event)
    (clr3 : Nat × Nat × Nat) (sig : Bool)
    (h1 : requestBatchSolution requester t1 batchId s0 = .ok (s1, ev1))
    (h2 : submitEncryptedGuess submitter t2 batchId w r su s1 = .ok (s2, ev2)) :
    handleBatchSolutionCallback anyCaller s0.nextRequestId clr3 sig s2 =
      .error .InvalidState := by
  rw [requestBatchSolution] at h1
  split at h1
  · exact Except.noConfusion h1
  split at h1
  · exact Except.noConfusion h1
  split at h1
  · exact Except.noConfusion h1
  split at h1
  · exact Except.noConfusion h1
  simp only [Except.ok.injEq, Prod.mk.injEq] at h1
  obtain ⟨hs1, hev1⟩ := h1
  subst hs1
  rw [submitEncryptedGuess] at h2
  split at h2
  · exact Except.noConfusion h2
  split at h2
  · exact Except.noConfusion h2
  split at h2
  · exact Except.noConfusion h2
  split at h2
  · exact Except.noConfusion h2
  split at h2
  · exact Except.noConfusion h2
  simp only [Except.ok.injEq, Prod.mk.injEq] at h2
  obtain ⟨hs2, hev2⟩ := h2
  subst hs2
  have hw := CT.add_ne_left (s0.batches batchId).encryptedWeapon w
  simp [handleBatchSolutionCallback, rebuildBatchSolution, hashCiphertexts,
    FHE.isInitialized, FHE.add, upd_same, hw]

/-- `demoReq`, then a further submission by address 4 lands on batch 1
before request 0 settles. -/
def demoReqSub : State :=
  stateAfter
    (exec (.submitEncryptedGuess 4 100 1 (CT.lit 1) (CT.lit 2) (CT.lit 3)) demoReq)
    demoReq

/-- Witness for C2: in the concrete interleaving open → submit → request →
submit → settle, the settlement of request 0 fails with `InvalidState`. -/
theorem C2_interleaved_submission_detected_witness :
    handleBatchSolutionCallback 9 0 (0, 0, 0) true demoReqSub =
      .error .InvalidState :=
  C2_interleaved_submission_detected demoSub demoReq demoReqSub 2 4 9 100 100 1
    (CT.lit 1) (CT.lit 2) (CT.lit 3)
    [.DecryptionRequested 0 1
       (some [.c (.add .uninit (.lit 5)), .c (.add .uninit (.lit 6)),
              .c (.add .uninit (.lit 7))])]
    [.Submission 4 1 (.c (.lit 1)) (.c (.lit 2)) (.c (.lit 3))]
    (0, 0, 0) true rfl rfl

/-- Witness for C4's amended theorem at the deployed state and request
id 5. -/
theorem C4_unknown_request_stale_witness :
    handleBatchSolutionCallback 9 5 (0, 0, 0) true (initState 0) =
      .error .StaleVersion ∧
    handleAccusationCallback 9 5 true true (initState 0) =
      .error .StaleVersion :=
  C4_unknown_request_stale (initState 0) (.init 0) 5 (by decide) 9 (0, 0, 0)
    true true

theorem demoSub_reachable : Reachable demoSub :=
  reachable_runD _ _ (.init 0)

theorem demoReq_reachable : Reachable demoReq :=
  reachable_runD _ _ demoSub_reachable

/-- C5: `processed` never transitions true→false under any external call;
a successful settle (either callback) marks its request id processed; and
once a context is processed, both settle entry points fail with
`AlreadyProcessed` (a revert, leaving all state unchanged). -/
theorem C5_processed_exactly_once
    (s : State) (hs : Reachable s) (a : Action) (rid : Nat)
    (c1 c2 : Addr) (clr3 : Nat × Nat × Nat) (clb : Bool) (sig sig2 : Bool)
    (s' : State) (ev : List Event) :
    ((s.decryptionContexts rid).processed = true →
       ((stateAfter (exec a s) s).decryptionContexts rid).processed = true)
    ∧ (handleBatchSolutionCallback c1 rid clr3 sig s = .ok (s', ev) →
        (s'.decryptionContexts rid).processed = true)
    ∧ (handleAccusationCallback c1 rid clb sig s = .ok (s', ev) →
        (s'.decryptionContexts rid).processed = true)
    ∧ ((s.decryptionContexts rid).processed = true →
        handleBatchSolutionCallback c2 rid clr3 sig2 s = .error .AlreadyProcessed ∧
        handleAccusationCallback c2 rid clb sig2 s = .error .AlreadyProcessed) := by
  have hinv := reachable_inv hs
  refine ⟨?_, ?_, ?_, ?_⟩
  · intro hp
    cases a with
    | addProvider c p =>
        simp only [exec, addProvider]
        repeat' split
        all_goals simpa [stateAfter] using hp
    | removeProvider c p =>
        simp only [exec, removeProvider]
        repeat' split
        all_goals simpa [stateAfter] using hp
    | pause c =>
        simp only [exec, pause]
        repeat' split
        all_goals simpa [stateAfter] using hp
    | unpause c =>
        simp only [exec, unpause]
        repeat' split
        all_goals simpa [stateAfter] using hp
    | setCooldown c n =>
        simp only [exec, setCooldown]
        repeat' split
        all_goals simpa [stateAfter] using hp
    | openBatch c =>
        simp only [exec, openBatch]
        repeat' split
        all_goals simpa [stateAfter] using hp
    | closeBatch c b =>
        simp only [exec, closeBatch]
        repeat' split
        all_goals simpa [stateAfter] using hp
    | submitEncryptedGuess c t b w r su =>
        simp only [exec, submitEncryptedGuess]
        repeat' split
        all_goals simpa [stateAfter] using hp
    | makeAccusation c t b w r su =>
        simp only [exec, makeAccusation]
        repeat' split
        all_goals try simpa [stateAfter] using hp
        simp only [stateAfter, upd]
        split
        · rename_i hr
          rw [hinv.2.2 rid (le_of_eq hr.symm)] at hp
          exact absurd hp (by simp [zeroCtx])
        · exact hp
    | requestBatchSolution c t b =>
        simp only [exec, requestBatchSolution]
        repeat' split
        all_goals try simpa [stateAfter] using hp
        simp only [stateAfter, upd]
        split
        · rename_i hr
          rw [hinv.2.2 rid (le_of_eq hr.symm)] at hp
          exact absurd hp (by simp [zeroCtx])
        · exact hp
    | handleAccusationCallback c rid2 clb2 sig3 =>
        simp only [exec, handleAccusationCallback]
        repeat' split
        all_goals try simpa [stateAfter] using hp
        simp only [stateAfter, upd]
        split
        · simp
        · exact hp
    | handleBatchSolutionCallback c rid2 clr2 sig3 =>
        simp only [exec, handleBatchSolutionCallback]
        repeat' split
        all_goals try simpa [stateAfter] using hp
        simp only [stateAfter, upd]
        split
        · simp
        · exact hp
  · intro h
    simp only [handleBatchSolutionCallback] at h
    split at h
    · exact Except.noConfusion h
    split at h
    · exact Except.noConfusion h
    split at h
    · exact Except.noConfusion h
    split at h
    · exact Except.noConfusion h
    split at h
    · exact Except.noConfusion h
    simp only [Except.ok.injEq, Prod.mk.injEq] at h
    obtain ⟨hs', hev⟩ := h
    subst hs'
    simp [upd]
  · intro h
    simp only [handleAccusationCallback] at h
    split at h
    · exact Except.noConfusion h
    split at h
    · exact Except.noConfusion h
    split at h
    · exact Except.noConfusion h
    split at h
    · exact Except.noConfusion h
    split at h
    · exact Except.noConfusion h
    simp only [Except.ok.injEq, Prod.mk.injEq] at h
    obtain ⟨hs', hev⟩ := h
    subst hs'
    simp [upd]
  · intro hp
    constructor
    · simp [handleBatchSolutionCallback, hp]
    · simp [handleAccusationCallback, hp]

/-- Witness for C5 at the concrete scenario: request 0 pending in
`demoReq`; its settle succeeds into `demoSettled`, after which both settle
entry points report `AlreadyProcessed`. -/
theorem C5_processed_exactly_once_witness :
    ((demoReq.decryptionContexts 0).processed = true →
       ((stateAfter (exec (.pause 0) demoReq) demoReq).decryptionContexts 0).processed = true)
    ∧ (handleBatchSolutionCallback 3 0 (7, 8, 9) true demoReq =
         .ok (demoSettled, [.DecryptionComplete 0 1 (7, 8, 9)]) →
        (demoSettled.decryptionContexts 0).processed = true)
    ∧ (handleAccusationCallback 3 0 true true demoReq =
         .ok (demoSettled, [.DecryptionComplete 0 1 (7, 8, 9)]) →
        (demoSettled.decryptionContexts 0).processed = true)
    ∧ ((demoReq.decryptionContexts 0).processed = true →
        handleBatchSolutionCallback 9 0 (7, 8, 9) true demoReq =
          .error .AlreadyProcessed ∧
        handleAccusationCallback 9 0 true true demoReq =
          .error .AlreadyProcessed) :=
  C5_processed_exactly_once demoReq demoReq_reachable (.pause 0) 0 3 9
    (7, 8, 9) true true true demoSettled [.DecryptionComplete 0 1 (7, 8, 9)]

/-- A reverted call leaves the state untouched. -/
theorem stateAfter_of_txOk_false (r : TxResult) (s : State)
    (h : txOk r = false) : stateAfter r s = s := by
  cases r with
  | ok a => simp [txOk] at h
  | error e => rfl

/-- Deployment by address 0 with batch 1 opened. -/
def demoOpen : State := runD [.openBatch 0] (initState 0)

/-- C6: with the preceding `Paused`/`RateLimited` gates passed,
`submitEncryptedGuess` fails `BatchClosed` if the batch is not open, else
`BatchFull` if `submissionCount` equals `MAX_BATCH_SIZE`, else
`InvalidState` if the caller is already in the batch's submitted set;
otherwise it succeeds, increments `submissionCount` by exactly one and
adds the caller to the submitted set. -/
theorem C6_submit_check_order
    (s : State) (caller : Addr) (now batchId : Nat) (w r su : CT)
    (hp : s.paused = false)
    (hcd : s.lastSubmissionAt caller + s.cooldownSeconds ≤ now) :
    ((s.batches batchId).isOpen = false →
       submitEncryptedGuess caller now batchId w r su s = .error .BatchClosed)
    ∧ ((s.batches batchId).isOpen = true →
        (s.batches batchId).submissionCount = MAX_BATCH_SIZE →
        submitEncryptedGuess caller now batchId w r su s = .error .BatchFull)
    ∧ ((s.batches batchId).isOpen = true →
        (s.batches batchId).submissionCount < MAX_BATCH_SIZE →
        s.hasSubmitted batchId caller = true →
        submitEncryptedGuess caller now batchId w r su s = .error .InvalidState)
    ∧ ((s.batches batchId).isOpen = true →
        (s.batches batchId).submissionCount < MAX_BATCH_SIZE →
        s.hasSubmitted batchId caller = false →
        txOk (submitEncryptedGuess caller now batchId w r su s) = true
        ∧ ((stateAfter (submitEncryptedGuess caller now batchId w r su s) s).batches
             batchId).submissionCount = (s.batches batchId).submissionCount + 1
        ∧ (stateAfter (submitEncryptedGuess caller now batchId w r su s) s).hasSubmitted
            batchId caller = true) := by
  have hcd' : ¬ now < s.lastSubmissionAt caller + s.cooldownSeconds :=
    Nat.not_lt.mpr hcd
  refine ⟨?_, ?_, ?_, ?_⟩
  · intro hopen
    simp [submitEncryptedGuess, hp, hcd', hopen]
  · intro hopen hfull
    simp [submitEncryptedGuess, hp, hcd', hopen, hfull]
  · intro hopen hlt hdup
    have hlt' : ¬ MAX_BATCH_SIZE ≤ (s.batches batchId).submissionCount :=
      Nat.not_le.mpr hlt
    simp [submitEncryptedGuess, hp, hcd', hopen, hlt', hdup]
  · intro hopen hlt hdup
    have hlt' : ¬ MAX_BATCH_SIZE ≤ (s.batches batchId).submissionCount :=
      Nat.not_le.mpr hlt
    simp [submitEncryptedGuess, hp, hcd', hopen, hlt', hdup, txOk, stateAfter]

/-- Witness for C6: batch 1 freshly opened, caller 1 at time 100. -/
theorem C6_submit_check_order_witness :
    (((demoOpen).batches 1).isOpen = false →
       submitEncryptedGuess 1 100 1 (CT.lit 1) (CT.lit 2) (CT.lit 3) demoOpen =
         .error .BatchClosed)
    ∧ (((demoOpen).batches 1).isOpen = true →
        ((demoOpen).batches 1).submissionCount = MAX_BATCH_SIZE →
        submitEncryptedGuess 1 100 1 (CT.lit 1) (CT.lit 2) (CT.lit 3) demoOpen =
          .error .BatchFull)
    ∧ (((demoOpen).batches 1).isOpen = true →
        ((demoOpen).batches 1).submissionCount < MAX_BATCH_SIZE →
        demoOpen.hasSubmitted 1 1 = true →
        submitEncryptedGuess 1 100 1 (CT.lit 1) (CT.lit 2) (CT.lit 3) demoOpen =
          .error .InvalidState)
    ∧ (((demoOpen).batches 1).isOpen = true →
        ((demoOpen).batches 1).submissionCount < MAX_BATCH_SIZE →
        demoOpen.hasSubmitted 1 1 = false →
        txOk (submitEncryptedGuess 1 100 1 (CT.lit 1) (CT.lit 2) (CT.lit 3) demoOpen) = true
        ∧ ((stateAfter (submitEncryptedGuess 1 100 1 (CT.lit 1) (CT.lit 2) (CT.lit 3) demoOpen)
              demoOpen).batches 1).submissionCount =
            ((demoOpen).batches 1).submissionCount + 1
        ∧ (stateAfter (submitEncryptedGuess 1 100 1 (CT.lit 1) (CT.lit 2) (CT.lit 3) demoOpen)
             demoOpen).hasSubmitted 1 1 = true) :=
  C6_submit_check_order demoOpen 1 100 1 (CT.lit 1) (CT.lit 2) (CT.lit 3) rfl
    (by decide)

/-- C7: in every reachable state every batch satisfies
`submissionCount ≤ MAX_BATCH_SIZE` (it is a `Nat`, so `0 ≤` is inherent),
and a submission to an open batch whose count already equals
`MAX_BATCH_SIZE` fails with `BatchFull` and leaves the state unchanged. -/
theorem C7_submission_count_bounded :
    (∀ s : State, Reachable s → ∀ b, (s.batches b).submissionCount ≤ MAX_BATCH_SIZE)
    ∧ (∀ (s : State) (caller : Addr) (now batchId : Nat) (w r su : CT),
        s.paused = false →
        s.lastSubmissionAt caller + s.cooldownSeconds ≤ now →
        (s.batches batchId).isOpen = true →
        (s.batches batchId).submissionCount = MAX_BATCH_SIZE →
        submitEncryptedGuess caller now batchId w r su s = .error .BatchFull
        ∧ stateAfter (submitEncryptedGuess caller now batchId w r su s) s = s) := by
  constructor
  · intro s hs b
    exact (reachable_inv hs).2.1 b
  · intro s caller now batchId w r su hp hcd hopen hfull
    have hcd' : ¬ now < s.lastSubmissionAt caller + s.cooldownSeconds :=
      Nat.not_lt.mpr hcd
    have h1 : submitEncryptedGuess caller now batchId w r su s = .error .BatchFull := by
      simp [submitEncryptedGuess, hp, hcd', hopen, hfull]
    exact ⟨h1, by rw [h1]; rfl⟩

/-- A state with batch 1 open and already holding `MAX_BATCH_SIZE`
submissions, used to exercise the `BatchFull` branch. -/
def demoFull : State :=
  { initState 0 with
      batches := upd (initState 0).batches 1
        { isOpen := true, submissionCount := MAX_BATCH_SIZE } }

/-- Witness for C7: the deployed state respects the bound, and the 11th
submission to the full open batch of `demoFull` fails `BatchFull` without
mutating state. -/
theorem C7_submission_count_bounded_witness :
    ((initState 0).batches 0).submissionCount ≤ MAX_BATCH_SIZE
    ∧ (submitEncryptedGuess 1 100 1 (CT.lit 1) (CT.lit 2) (CT.lit 3) demoFull =
         .error .BatchFull
       ∧ stateAfter (submitEncryptedGuess 1 100 1 (CT.lit 1) (CT.lit 2) (CT.lit 3) demoFull)
           demoFull = demoFull) :=
  ⟨C7_submission_count_bounded.1 (initState 0) (.init 0) 0,
   C7_submission_count_bounded.2 demoFull 1 100 1 (CT.lit 1) (CT.lit 2) (CT.lit 3)
     rfl (by decide) rfl rfl⟩

/-- C8: with the pause gate passed, each cooldown-gated entry point fails
with `RateLimited` exactly when `now` is within the cooldown window of the
caller's category ledger (`lastSubmissionAt` for contributions and
accusations, `lastRequestAt` for solution requests, tracked
independently); on success the call stamps `now` into exactly its own
category ledger; and a rejected call leaves the state (hence both
ledgers) unchanged. -/
theorem C8_cooldown_exact
    (s : State) (caller : Addr) (now batchId : Nat) (w r su : CT)
    (hp : s.paused = false) :
    (submitEncryptedGuess caller now batchId w r su s = .error .RateLimited ↔
       now < s.lastSubmissionAt caller + s.cooldownSeconds)
    ∧ (makeAccusation caller now batchId w r su s = .error .RateLimited ↔
       now < s.lastSubmissionAt caller + s.cooldownSeconds)
    ∧ (requestBatchSolution caller now batchId s = .error .RateLimited ↔
       now < s.lastRequestAt caller + s.cooldownSeconds)
    ∧ (txOk (submitEncryptedGuess caller now batchId w r su s) = true →
        (stateAfter (submitEncryptedGuess caller now batchId w r su s) s).lastSubmissionAt
            caller = now
        ∧ (stateAfter (submitEncryptedGuess caller now batchId w r su s) s).lastRequestAt =
            s.lastRequestAt)
    ∧ (txOk (makeAccusation caller now batchId w r su s) = true →
        (stateAfter (makeAccusation caller now batchId w r su s) s).lastSubmissionAt
            caller = now
        ∧ (stateAfter (makeAccusation caller now batchId w r su s) s).lastRequestAt =
            s.lastRequestAt)
    ∧ (txOk (requestBatchSolution caller now batchId s) = true →
        (stateAfter (requestBatchSolution caller now batchId s) s).lastRequestAt caller = now
        ∧ (stateAfter (requestBatchSolution caller now batchId s) s).lastSubmissionAt =
            s.lastSubmissionAt)
    ∧ (txOk (submitEncryptedGuess caller now batchId w r su s) = false →
        stateAfter (submitEncryptedGuess caller now batchId w r su s) s = s)
    ∧ (txOk (makeAccusation caller now batchId w r su s) = false →
        stateAfter (makeAccusation caller now batchId w r su s) s = s)
    ∧ (txOk (requestBatchSolution caller now batchId s) = false →
        stateAfter (requestBatchSolution caller now batchId s) s = s) := by
  refine ⟨?_, ?_, ?_, ?_, ?_, ?_,
    fun h => stateAfter_of_txOk_false _ _ h,
    fun h => stateAfter_of_txOk_false _ _ h,
    fun h => stateAfter_of_txOk_false _ _ h⟩
  · by_cases hc : now < s.lastSubmissionAt caller + s.cooldownSeconds
    · simp [submitEncryptedGuess, hp, hc]
    · simp only [submitEncryptedGuess, hp, hc, if_false, Bool.false_eq_true, iff_false]
      intro h
      repeat' split at h
      all_goals simp at h
  · by_cases hc : now < s.lastSubmissionAt caller + s.cooldownSeconds
    · simp [makeAccusation, hp, hc]
    · simp only [makeAccusation, hp, hc, if_false, Bool.false_eq_true, iff_false]
      intro h
      repeat' split at h
      all_goals simp at h
  · by_cases hc : now < s.lastRequestAt caller + s.cooldownSeconds
    · simp [requestBatchSolution, hp, hc]
    · simp only [requestBatchSolution, hp, hc, if_false, Bool.false_eq_true, iff_false]
      intro h
      repeat' split at h
      all_goals simp at h
  · simp only [submitEncryptedGuess, hp, if_false, Bool.false_eq_true]
    repeat' split
    all_goals intro h
    all_goals try simp [txOk] at h
    simp [stateAfter]
  · simp only [makeAccusation, hp, if_false, Bool.false_eq_true]
    repeat' split
    all_goals intro h
    all_goals try simp [txOk] at h
    simp [stateAfter]
  · simp only [requestBatchSolution, hp, if_false, Bool.false_eq_true]
    repeat' split
    all_goals intro h
    all_goals try simp [txOk] at h
    simp [stateAfter]

/-- Witness for C8 in the opened-batch state at time 100 for caller 1. -/
theorem C8_cooldown_exact_witness :
    (submitEncryptedGuess 1 100 1 (CT.lit 1) (CT.lit 2) (CT.lit 3) demoOpen =
        .error .RateLimited ↔
       100 < demoOpen.lastSubmissionAt 1 + demoOpen.cooldownSeconds)
    ∧ (makeAccusation 1 100 1 (CT.lit 1) (CT.lit 2) (CT.lit 3) demoOpen =
         .error .RateLimited ↔
        100 < demoOpen.lastSubmissionAt 1 + demoOpen.cooldownSeconds)
    ∧ (requestBatchSolution 1 100 1 demoOpen = .error .RateLimited ↔
        100 < demoOpen.lastRequestAt 1 + demoOpen.cooldownSeconds)
    ∧ (txOk (submitEncryptedGuess 1 100 1 (CT.lit 1) (CT.lit 2) (CT.lit 3) demoOpen) = true →
        (stateAfter (submitEncryptedGuess 1 100 1 (CT.lit 1) (CT.lit 2) (CT.lit 3) demoOpen)
            demoOpen).lastSubmissionAt 1 = 100
        ∧ (stateAfter (submitEncryptedGuess 1 100 1 (CT.lit 1) (CT.lit 2) (CT.lit 3) demoOpen)
            demoOpen).lastRequestAt = demoOpen.lastRequestAt)
    ∧ (txOk (makeAccusation 1 100 1 (CT.lit 1) (CT.lit 2) (CT.lit 3) demoOpen) = true →
        (stateAfter (makeAccusation 1 100 1 (CT.lit 1) (CT.lit 2) (CT.lit 3) demoOpen)
            demoOpen).lastSubmissionAt 1 = 100
        ∧ (stateAfter (makeAccusation 1 100 1 (CT.lit 1) (CT.lit 2) (CT.lit 3) demoOpen)
            demoOpen).lastRequestAt = demoOpen.lastRequestAt)
    ∧ (txOk (requestBatchSolution 1 100 1 demoOpen) = true →
        (stateAfter (requestBatchSolution 1 100 1 demoOpen) demoOpen).lastRequestAt 1 = 100
        ∧ (stateAfter (requestBatchSolution 1 100 1 demoOpen) demoOpen).lastSubmissionAt =
            demoOpen.lastSubmissionAt)
    ∧ (txOk (submitEncryptedGuess 1 100 1 (CT.lit 1) (CT.lit 2) (CT.lit 3) demoOpen) = false →
        stateAfter (submitEncryptedGuess 1 100 1 (CT.lit 1) (CT.lit 2) (CT.lit 3) demoOpen)
          demoOpen = demoOpen)
    ∧ (txOk (makeAccusation 1 100 1 (CT.lit 1) (CT.lit 2) (CT.lit 3) demoOpen) = false →
        stateAfter (makeAccusation 1 100 1 (CT.lit 1) (CT.lit 2) (CT.lit 3) demoOpen)
          demoOpen = demoOpen)
    ∧ (txOk (requestBatchSolution 1 100 1 demoOpen) = false →
        stateAfter (requestBatchSolution 1 100 1 demoOpen) demoOpen = demoOpen) :=
  C8_cooldown_exact demoOpen 1 100 1 (CT.lit 1) (CT.lit 2) (CT.lit 3) rfl

/-- C9: a successful contribution and a successful accusation by the same
address on the same batch are mutually exclusive.  Both require the batch
open and the caller absent from the shared `hasSubmitted` set; each marks
the caller submitted on success; and once either has succeeded, the other
(with its earlier pause/cooldown/open — and, for a contribution, capacity
— gates passed) fails with `InvalidState`. -/
theorem C9_submit_accuse_exclusive
    (s sSub sAcc : State) (a1 : Addr) (t1 t2 batchId : Nat)
    (w r su w2 r2 su2 : CT) (evS evA : List Event)
    (hsub : submitEncryptedGuess a1 t1 batchId w r su s = .ok (sSub, evS))
    (hacc : makeAccusation a1 t1 batchId w2 r2 su2 s = .ok (sAcc, evA)) :
    (s.batches batchId).isOpen = true
    ∧ s.hasSubmitted batchId a1 = false
    ∧ sSub.hasSubmitted batchId a1 = true
    ∧ sAcc.hasSubmitted batchId a1 = true
    ∧ (sSub.paused = false → sSub.lastSubmissionAt a1 + sSub.cooldownSeconds ≤ t2 →
        (sSub.batches batchId).isOpen = true →
        makeAccusation a1 t2 batchId w2 r2 su2 sSub = .error .InvalidState)
    ∧ (sAcc.paused = false → sAcc.lastSubmissionAt a1 + sAcc.cooldownSeconds ≤ t2 →
        (sAcc.batches batchId).isOpen = true →
        (sAcc.batches batchId).submissionCount < MAX_BATCH_SIZE →
        submitEncryptedGuess a1 t2 batchId w2 r2 su2 sAcc = .error .InvalidState) := by
  simp only [submitEncryptedGuess] at hsub
  split at hsub
  · exact Except.noConfusion hsub
  split at hsub
  · exact Except.noConfusion hsub
  split at hsub
  · exact Except.noConfusion hsub
  split at hsub
  · exact Except.noConfusion hsub
  split at hsub
  · exact Except.noConfusion hsub
  rename_i hp1 hc1 hcl hfull hdup
  simp only [Except.ok.injEq, Prod.mk.injEq] at hsub
  obtain ⟨hs1, he1⟩ := hsub
  subst hs1
  simp only [makeAccusation] at hacc
  split at hacc
  · exact Except.noConfusion hacc
  simp only [Except.ok.injEq, Prod.mk.injEq] at hacc
  obtain ⟨hs2, he2⟩ := hacc
  subst hs2
  refine ⟨by simpa using hcl, by simpa using hdup, by simp, by simp, ?_, ?_⟩
  · intro hp2 hcd2 hopen2
    simp at hp2 hcd2 hopen2
    have hcd2' := Nat.not_lt.mpr hcd2
    simp [makeAccusation, hp2, hcd2', hopen2]
  · intro hp2 hcd2 hopen2 hfull2
    simp at hp2 hcd2 hopen2 hfull2
    have hcd2' := Nat.not_lt.mpr hcd2
    have hfull2' := Nat.not_le.mpr hfull2
    simp [submitEncryptedGuess, hp2, hcd2', hopen2, hfull2']

/-- Witness for C9: from the freshly opened batch 1, address 1's
contribution and accusation each succeed individually, and each blocks the
other afterwards. -/
theorem C9_submit_accuse_exclusive_witness :
    ((demoOpen).batches 1).isOpen = true
    ∧ demoOpen.hasSubmitted 1 1 = false
    ∧ (stateAfter (exec (.submitEncryptedGuess 1 100 1 (CT.lit 5) (CT.lit 6) (CT.lit 7))
         demoOpen) demoOpen).hasSubmitted 1 1 = true
    ∧ (stateAfter (exec (.makeAccusation 1 100 1 (CT.lit 4) (CT.lit 4) (CT.lit 4))
         demoOpen) demoOpen).hasSubmitted 1 1 = true
    ∧ ((stateAfter (exec (.submitEncryptedGuess 1 100 1 (CT.lit 5) (CT.lit 6) (CT.lit 7))
          demoOpen) demoOpen).paused = false →
       (stateAfter (exec (.submitEncryptedGuess 1 100 1 (CT.lit 5) (CT.lit 6) (CT.lit 7))
          demoOpen) demoOpen).lastSubmissionAt 1 +
         (stateAfter (exec (.submitEncryptedGuess 1 100 1 (CT.lit 5) (CT.lit 6) (CT.lit 7))
            demoOpen) demoOpen).cooldownSeconds ≤ 200 →
       ((stateAfter (exec (.submitEncryptedGuess 1 100 1 (CT.lit 5) (CT.lit 6) (CT.lit 7))
           demoOpen) demoOpen).batches 1).isOpen = true →
       makeAccusation 1 200 1 (CT.lit 4) (CT.lit 4) (CT.lit 4)
         (stateAfter (exec (.submitEncryptedGuess 1 100 1 (CT.lit 5) (CT.lit 6) (CT.lit 7))
            demoOpen) demoOpen) = .error .InvalidState)
    ∧ ((stateAfter (exec (.makeAccusation 1 100 1 (CT.lit 4) (CT.lit 4) (CT.lit 4))
          demoOpen) demoOpen).paused = false →
       (stateAfter (exec (.makeAccusation 1 100 1 (CT.lit 4) (CT.lit 4) (CT.lit 4))
          demoOpen) demoOpen).lastSubmissionAt 1 +
         (stateAfter (exec (.makeAccusation 1 100 1 (CT.lit 4) (CT.lit 4) (CT.lit 4))
            demoOpen) demoOpen).cooldownSeconds ≤ 200 →
       ((stateAfter (exec (.makeAccusation 1 100 1 (CT.lit 4) (CT.lit 4) (CT.lit 4))
           demoOpen) demoOpen).batches 1).isOpen = true →
       ((stateAfter (exec (.makeAccusation 1 100 1 (CT.lit 4) (CT.lit 4) (CT.lit 4))
           demoOpen) demoOpen).batches 1).submissionCount < MAX_BATCH_SIZE →
       submitEncryptedGuess 1 200 1 (CT.lit 4) (CT.lit 4) (CT.lit 4)
         (stateAfter (exec (.makeAccusation 1 100 1 (CT.lit 4) (CT.lit 4) (CT.lit 4))
            demoOpen) demoOpen) = .error .InvalidState) :=
  C9_submit_accuse_exclusive demoOpen
    (stateAfter (exec (.submitEncryptedGuess 1 100 1 (CT.lit 5) (CT.lit 6) (CT.lit 7))
       demoOpen) demoOpen)
    (stateAfter (exec (.makeAccusation 1 100 1 (CT.lit 4) (CT.lit 4) (CT.lit 4))
       demoOpen) demoOpen)
    1 100 200 1 (CT.lit 5) (CT.lit 6) (CT.lit 7) (CT.lit 4) (CT.lit 4) (CT.lit 4)
    [.Submission 1 1 (.c (.lit 5)) (.c (.lit 6)) (.c (.lit 7))]
    [.DecryptionRequested 0 1
       (some [.b (.andc (.andc (.eqc .uninit (.lit 4)) (.eqc .uninit (.lit 4)))
                 (.eqc .uninit (.lit 4)))])]
    rfl rfl

/-- The providers mapping after an action: only `addProvider` and
`removeProvider` touch it. -/
def provAfter : Action → (Addr → Bool) → (Addr → Bool)
  | .addProvider _ q, f => upd f q true
  | .removeProvider _ q, f => upd f q false
  | _, f => f

/-- The rebuild helpers can only fail with `InvalidState`. -/
theorem rebuildIsCorrect_error (bid : Nat) (s : State) (e : Err)
    (h : rebuildIsCorrect bid s = .error e) : e = .InvalidState := by
  simp only [rebuildIsCorrect] at h
  split at h
  · simp only [Except.error.injEq] at h; exact h.symm
  split at h
  · simp only [Except.error.injEq] at h; exact h.symm
  split at h
  · simp only [Except.error.injEq] at h; exact h.symm
  exact Except.noConfusion h

theorem rebuildBatchSolution_error (bid : Nat) (s : State) (e : Err)
    (h : rebuildBatchSolution bid s = .error e) : e = .InvalidState := by
  simp only [rebuildBatchSolution] at h
  split at h
  · simp only [Except.error.injEq] at h; exact h.symm
  split at h
  · simp only [Except.error.injEq] at h; exact h.symm
  split at h
  · simp only [Except.error.injEq] at h; exact h.symm
  exact Except.noConfusion h

/-- The rebuild helpers read only `batches`, so the providers mapping is
irrelevant to them. -/
theorem rebuildIsCorrect_providers (bid : Nat) (s : State) (p : Addr → Bool) :
    rebuildIsCorrect bid { s with providers := p } = rebuildIsCorrect bid s := rfl

theorem rebuildBatchSolution_providers (bid : Nat) (s : State) (p : Addr → Bool) :
    rebuildBatchSolution bid { s with providers := p } =
      rebuildBatchSolution bid s := rfl

/-- C10: the provider role is inert.  No call ever fails with
`NotProvider`; running any call on two states that differ only in the
providers mapping yields the same outcome and events, with the final
states again differing only as `provAfter` prescribes (i.e. no operation
reads `providers`, and only `addProvider`/`removeProvider` write it); and
the provider-management calls change nothing outside the providers
mapping. -/
theorem C10_providers_inert :
    (∀ (a : Action) (s : State), exec a s ≠ .error .NotProvider)
    ∧ (∀ (a : Action) (s : State) (p : Addr → Bool),
        exec a { s with providers := p } =
          (exec a s).map (fun r => ({ r.1 with providers := provAfter a p }, r.2)))
    ∧ (∀ (c q : Addr) (s : State),
        stateAfter (addProvider c q s) s =
          { s with providers := (stateAfter (addProvider c q s) s).providers }
        ∧ stateAfter (removeProvider c q s) s =
          { s with providers := (stateAfter (removeProvider c q s) s).providers }) := by
  refine ⟨?_, ?_, ?_⟩
  · intro a s
    cases a <;>
      simp only [exec, addProvider, removeProvider, pause, unpause, setCooldown,
        openBatch, closeBatch, submitEncryptedGuess, makeAccusation,
        requestBatchSolution, handleAccusationCallback, handleBatchSolutionCallback] <;>
      (repeat' split) <;>
      try simp
    all_goals
      rename_i e heq
      intro he
      rw [he] at heq
      first
        | exact Err.noConfusion (rebuildIsCorrect_error _ _ _ heq)
        | exact Err.noConfusion (rebuildBatchSolution_error _ _ _ heq)
  · intro a s p
    cases a with
    | addProvider c q =>
        simp only [exec, addProvider, provAfter]
        (repeat' split) <;> rfl
    | removeProvider c q =>
        simp only [exec, removeProvider, provAfter]
        (repeat' split) <;> rfl
    | pause c =>
        simp only [exec, pause, provAfter]
        (repeat' split) <;> rfl
    | unpause c =>
        simp only [exec, unpause, provAfter]
        (repeat' split) <;> rfl
    | setCooldown c n =>
        simp only [exec, setCooldown, provAfter]
        (repeat' split) <;> rfl
    | openBatch c =>
        simp only [exec, openBatch, provAfter]
        (repeat' split) <;> rfl
    | closeBatch c b =>
        simp only [exec, closeBatch, provAfter]
        (repeat' split) <;> rfl
    | submitEncryptedGuess c t b w r su =>
        simp only [exec, submitEncryptedGuess, provAfter]
        (repeat' split) <;> rfl
    | makeAccusation c t b w r su =>
        simp only [exec, makeAccusation, provAfter]
        (repeat' split) <;> rfl
    | requestBatchSolution c t b =>
        simp only [exec, requestBatchSolution, provAfter]
        (repeat' split) <;> rfl
    | handleAccusationCallback c rid clr sig =>
        simp only [exec, handleAccusationCallback, provAfter,
          rebuildIsCorrect_providers]
        by_cases h1 : (s.decryptionContexts rid).processed = true
        · simp [h1, Except.map]
        · by_cases h2 : (s.decryptionContexts rid).modelVersion ≠ s.modelVersion
          · simp [h1, h2, Except.map]
          · cases hre : rebuildIsCorrect (s.decryptionContexts rid).batchId s with
            | error e => simp [h1, h2, hre, Except.map]
            | ok isC =>
                by_cases h4 : hashCiphertexts [HB.b isC] ≠
                    (s.decryptionContexts rid).stateHash
                · simp [h1, h2, hre, h4, Except.map]
                · by_cases h5 : (!sig) = true
                  · simp [h1, h2, hre, h4, h5, Except.map]
                  · simp [h1, h2, hre, h4, h5, Except.map]
    | handleBatchSolutionCallback c rid clr sig =>
        simp only [exec, handleBatchSolutionCallback, provAfter,
          rebuildBatchSolution_providers]
        by_cases h1 : (s.decryptionContexts rid).processed = true
        · simp [h1, Except.map]
        · by_cases h2 : (s.decryptionContexts rid).modelVersion ≠ s.modelVersion
          · simp [h1, h2, Except.map]
          · cases hre : rebuildBatchSolution (s.decryptionContexts rid).batchId s with
            | error e => simp [h1, h2, hre, Except.map]
            | ok t =>
                obtain ⟨w, r, su⟩ := t
                by_cases h4 : hashCiphertexts [HB.c w, HB.c r, HB.c su] ≠
                    (s.decryptionContexts rid).stateHash
                · simp [h1, h2, hre, h4, Except.map]
                · by_cases h5 : (!sig) = true
                  · simp [h1, h2, hre, h4, h5, Except.map]
                  · simp [h1, h2, hre, h4, h5, Except.map]
  · intro c q s
    constructor
    · simp only [addProvider]
      split <;> rfl
    · simp only [removeProvider]
      split <;> rfl

/-- Witness for C10 at concrete inputs: `openBatch` by the owner never
reports `NotProvider` and commutes with an arbitrary providers mapping;
`addProvider 0 7` changes nothing outside the providers mapping. -/
theorem C10_providers_inert_witness :
    exec (.openBatch 0) (initState 0) ≠ .error .NotProvider
    ∧ exec (.openBatch 0) { initState 0 with providers := fun _ => true } =
        (exec (.openBatch 0) (initState 0)).map
          (fun r => ({ r.1 with providers := provAfter (.openBatch 0) (fun _ => true) }, r.2))
    ∧ (stateAfter (addProvider 0 7 (initState 0)) (initState 0) =
        { initState 0 with
            providers := (stateAfter (addProvider 0 7 (initState 0)) (initState 0)).providers }
       ∧ stateAfter (removeProvider 0 7 (initState 0)) (initState 0) =
        { initState 0 with
            providers := (stateAfter (removeProvider 0 7 (initState 0)) (initState 0)).providers }) :=
  ⟨C10_providers_inert.1 (.openBatch 0) (initState 0),
   C10_providers_inert.2.1 (.openBatch 0) (initState 0) (fun _ => true),
   C10_providers_inert.2.2 0 7 (initState 0)⟩

end ClueFHE
